import Mathlib

/-!
Verification development for the kapprofiler collector
(`pkg/collector/collector.go`).

The definitions below are a shallow embedding of the collector: the pure
deduplication / profile-building / merge functions are translated directly
from the Go source, and the stateful parts (container registry, mount cache,
pod finalizer table, profile store) are modelled as explicit state passing.
Go slices become `List`, Go maps become association lists, Go machine
integers (`uint64` / `uint32` ports, pids, mount-namespace ids) become `Nat`
(no arithmetic is performed on them, so overflow is irrelevant), and
fallible cluster-API calls become `Option` / `Except` together with
explicit success flags in a drain environment.
-/

namespace KapProfiler

/-- `MaxOpenEvents` from collector.go (per container profile). -/
def MaxOpenEvents : Nat := 10000

/-- `MaxNetworkEvents` from collector.go (per container profile). -/
def MaxNetworkEvents : Nat := 10000

/-- `RecordStrategyOnlyIfNotExists` from collector.go. -/
def RecordStrategyOnlyIfNotExists : String := "only-if-not-exists"

/-- Label key `kapprofiler.kubescape.io/final`. -/
def finalLabel : String := "kapprofiler.kubescape.io/final"

/-- Label key `kapprofiler.kubescape.io/partial`. -/
def partLabel : String := "kapprofiler.kubescape.io/partial"

/-- Label key `kapprofiler.kubescape.io/failed`. -/
def failedLabel : String := "kapprofiler.kubescape.io/failed"

/-- Label key `kapprofiler.kubescape.io/namespace`. -/
def namespaceLabel : String := "kapprofiler.kubescape.io/namespace"

/-- `tracing.ExecveEvent` (fields used by the collector). -/
structure ExecveEvent where
  pathName : String
  args : List String
  env : List String
deriving DecidableEq, Repr

/-- `tracing.OpenEvent` (fields used by the collector). -/
structure OpenEvent where
  pathName : String
  flags : List String
deriving DecidableEq, Repr

/-- `tracing.CapabilitiesEvent` (fields used by the collector). -/
structure CapabilitiesEvent where
  syscall : String
  capabilityName : String
deriving DecidableEq, Repr

/-- `tracing.DnsEvent` (fields used by the collector). -/
structure DnsEvent where
  dnsName : String
  addresses : List String
deriving DecidableEq, Repr

/-- `tracing.NetworkEvent` (fields used by the collector). -/
structure NetworkEvent where
  packetType : String
  protocol : String
  port : Nat
  dstEndpoint : String
deriving DecidableEq, Repr

/-- `TotalEvents` from collector.go: the per-drain event window. -/
structure TotalEvents where
  execEvents : List ExecveEvent
  openEvents : List OpenEvent
  syscallEvents : List String
  capabilitiesEvents : List CapabilitiesEvent
  dnsEvents : List DnsEvent
  networkEvents : List NetworkEvent
deriving DecidableEq, Repr

/-- `ExecCalls` profile entry: equal iff path, args and envs all match. -/
structure ExecCalls where
  path : String
  args : List String
  envs : List String
deriving DecidableEq, Repr

/-- `OpenCalls` profile entry. -/
structure OpenCalls where
  path : String
  flags : List String
deriving DecidableEq, Repr

/-- `CapabilitiesCalls` profile entry, keyed by syscall. -/
structure CapabilitiesCalls where
  syscall : String
  capabilities : List String
deriving DecidableEq, Repr

/-- `DnsCalls` profile entry, keyed by dns name. -/
structure DnsCalls where
  dnsName : String
  addresses : List String
deriving DecidableEq, Repr

/-- `NetworkCalls` profile entry. -/
structure NetworkCalls where
  protocol : String
  port : Nat
  dstEndpoint : String
deriving DecidableEq, Repr

/-- `NetworkActivity`: incoming and outgoing network calls. -/
structure NetworkActivity where
  incoming : List NetworkCalls := []
  outgoing : List NetworkCalls := []
deriving DecidableEq, Repr

/-- `ContainerProfile` from types.go (shape as used by collector.go). -/
structure ContainerProfile where
  name : String
  execs : List ExecCalls := []
  opens : List OpenCalls := []
  syscalls : List String := []
  capabilities : List CapabilitiesCalls := []
  dns : List DnsCalls := []
  networkActivity : NetworkActivity := {}
deriving DecidableEq, Repr

/-- Stored `ApplicationProfile`: metadata labels plus `Spec.Containers`. -/
structure ApplicationProfile where
  labels : List (String × String) := []
  containers : List ContainerProfile := []
deriving DecidableEq, Repr

/-- Relevant fields of `CollectorManagerConfig`. -/
structure Config where
  interval : Nat := 0
  finalizeTime : Nat := 0
  finalizeJitter : Nat := 0
  recordStrategy : String := ""
  ignoreMounts : Bool := false
  ignorePrefixes : List String := []
  storeNamespace : String := ""
deriving DecidableEq, Repr

/-- Reading a Go label map: a missing key yields the empty string. -/
def getLabel (labels : List (String × String)) (k : String) : String :=
  match labels.find? (fun kv => kv.fst = k) with
  | some kv => kv.snd
  | none => ""

/-- Setting one key of a label map (JSON merge-patch of a single label). -/
def setLabel (labels : List (String × String)) (k v : String) : List (String × String) :=
  if labels.any (fun kv => kv.fst = k) then
    labels.map (fun kv => if kv.fst = k then (k, v) else kv)
  else
    labels ++ [(k, v)]

/-- `execEventExists` from collector.go: some stored exec call has the same
path, args and envs as the event. -/
def execEventExists (e : ExecveEvent) (execCalls : List ExecCalls) : Bool :=
  execCalls.any (fun call =>
    decide (e.pathName = call.path ∧ e.args = call.args ∧ e.env = call.envs))

/-- `networkEventExists` from collector.go: some stored network call has the
same destination endpoint, port and protocol. -/
def networkEventExists (e : NetworkEvent) (networkCalls : List NetworkCalls) : Bool :=
  networkCalls.any (fun call =>
    decide (e.dstEndpoint = call.dstEndpoint ∧ e.port = call.port ∧ e.protocol = call.protocol))

/-- `dnsEventExists` from collector.go: true iff some stored dns call has the
same dns name.  The Go body also tries to union the event addresses into the
matching entry, but it assigns the appended slice to the `range`-loop copy
(`call.Addresses = append(call.Addresses, address)`), so the stored entry is
never updated: the observable behavior is pure membership by name. -/
def dnsEventExists (e : DnsEvent) (dnsCalls : List DnsCalls) : Bool :=
  dnsCalls.any (fun call => decide (e.dnsName = call.dnsName))

/-- `openEventExists` from collector.go.  Returns
`(hasSamePath, hasSameFlags)`: scanning the stored open calls in order, an
entry with the same path sets `hasSamePath`; if additionally every flag of
the candidate is present in that entry's flag list the scan stops with
`hasSameFlags` set. -/
def openEventExists (e : OpenEvent) : List OpenCalls → Bool × Bool
  | [] => (false, false)
  | element :: rest =>
    if element.path = e.pathName then
      if e.flags.all (fun flag => decide (flag ∈ element.flags)) then
        (true, true)
      else
        (true, (openEventExists e rest).snd)
    else
      openEventExists e rest

/-- `shouldIncludeOpenEvent` from collector.go: drop when the accumulated
open list is strictly longer than `MaxOpenEvents`, when the path has a
configured ignore-prefix, when a same-path stored entry already covers all
candidate flags, or (if `ignoreMounts`) when the path is under a pod mount. -/
def shouldIncludeOpenEvent (cfg : Config) (e : OpenEvent) (openEvents : List OpenCalls)
    (mounts : List String) : Bool :=
  if openEvents.length > MaxOpenEvents then
    false
  else if cfg.ignorePrefixes.any (fun p => p.isPrefixOf e.pathName) then
    false
  else
    let pf := openEventExists e openEvents
    if pf.fst && pf.snd then
      false
    else if cfg.ignoreMounts && mounts.any (fun m => m.isPrefixOf e.pathName) then
      false
    else
      true

/-- `shouldProcessEvents` from collector.go: at least one of the six event
slices is nonempty. -/
def shouldProcessEvents (t : TotalEvents) : Bool :=
  t.execEvents.length > 0 || t.openEvents.length > 0 || t.syscallEvents.length > 0 ||
    t.capabilitiesEvents.length > 0 || t.dnsEvents.length > 0 || t.networkEvents.length > 0

/-- The exec-building loop of `CollectContainerEvents`: append unless the
event already exists, except that events with an empty path name are always
appended (the Go comment: some execve events do not have a path name). -/
def buildExecs (events : List ExecveEvent) : List ExecCalls :=
  events.foldl
    (fun acc e =>
      if !execEventExists e acc || e.pathName = "" then
        acc ++ [⟨e.pathName, e.args, e.env⟩]
      else
        acc)
    []

/-- The dns-building loop of `CollectContainerEvents`. -/
def buildDns (events : List DnsEvent) : List DnsCalls :=
  events.foldl
    (fun acc e =>
      if !dnsEventExists e acc then acc ++ [⟨e.dnsName, e.addresses⟩] else acc)
    []

/-- The in-delta capabilities accumulation: find the first entry with the
event's syscall and add the capability name to it if missing. Returns `none`
when no entry has that syscall. -/
def addCapToFirstMatch (e : CapabilitiesEvent) :
    List CapabilitiesCalls → Option (List CapabilitiesCalls)
  | [] => none
  | c :: rest =>
    if c.syscall = e.syscall then
      if decide (e.capabilityName ∈ c.capabilities) then
        some (c :: rest)
      else
        some ({ c with capabilities := c.capabilities ++ [e.capabilityName] } :: rest)
    else
      (addCapToFirstMatch e rest).map (fun l => c :: l)

/-- The capabilities-building loop of `CollectContainerEvents`. -/
def buildCapabilities (events : List CapabilitiesEvent) : List CapabilitiesCalls :=
  events.foldl
    (fun acc e =>
      match addCapToFirstMatch e acc with
      | some updated => updated
      | none => acc ++ [⟨e.syscall, [e.capabilityName]⟩])
    []

/-- The open-building loop of `CollectContainerEvents`. -/
def buildOpens (cfg : Config) (mounts : List String) (events : List OpenEvent) : List OpenCalls :=
  events.foldl
    (fun acc e =>
      if shouldIncludeOpenEvent cfg e acc mounts then acc ++ [⟨e.pathName, e.flags⟩] else acc)
    []

/-- The network-activity loop of `CollectContainerEvents`: events with
packet type `OUTGOING` are deduplicated into the outgoing list, events with
packet type `HOST` into the incoming list; no cap is applied here. -/
def buildNetworkActivity (events : List NetworkEvent) : NetworkActivity :=
  events.foldl
    (fun acc e =>
      if e.packetType = "OUTGOING" then
        if !networkEventExists e acc.outgoing then
          { acc with outgoing := acc.outgoing ++ [⟨e.protocol, e.port, e.dstEndpoint⟩] }
        else
          acc
      else if e.packetType = "HOST" then
        if !networkEventExists e acc.incoming then
          { acc with incoming := acc.incoming ++ [⟨e.protocol, e.port, e.dstEndpoint⟩] }
        else
          acc
      else
        acc)
    {}

/-- The pure core of `CollectContainerEvents`: build the fresh delta
`ContainerProfile` from the drained event window.  Syscalls are appended
without deduplication. -/
def buildContainerProfile (cfg : Config) (name : String) (mounts : List String)
    (t : TotalEvents) : ContainerProfile :=
  { name := name
    syscalls := t.syscallEvents
    execs := buildExecs t.execEvents
    dns := buildDns t.dnsEvents
    capabilities := buildCapabilities t.capabilitiesEvents
    opens := buildOpens cfg mounts t.openEvents
    networkActivity := buildNetworkActivity t.networkEvents }

/-- The capability-slot update of `mergeApplicationProfiles`.  The Go loop
reads the capability list through the stale `range`-loop copy
(`existingCapability.Capabilities`) while writing each append into the slot
(`existingContainer.Capabilities[i].Capabilities`): every missing delta
capability overwrites the slot with `stored ++ [cap]`, so only the last
missing capability of the delta entry survives. -/
def mergeCapsSlot (stored : List String) (deltaCaps : List String) : List String :=
  deltaCaps.foldl
    (fun slot cap => if decide (cap ∈ stored) then slot else stored ++ [cap])
    stored

/-- Apply one delta capabilities entry to the first stored entry with the
same syscall (`none` when no stored entry matches). -/
def mergeCapsIntoFirst (d : CapabilitiesCalls) :
    List CapabilitiesCalls → Option (List CapabilitiesCalls)
  | [] => none
  | c :: rest =>
    if c.syscall = d.syscall then
      some ({ c with capabilities := mergeCapsSlot c.capabilities d.capabilities } :: rest)
    else
      (mergeCapsIntoFirst d rest).map (fun l => c :: l)

/-- The capabilities part of `mergeApplicationProfiles`: delta entries whose
syscall matches a stored entry update it in place; the others are collected
and appended after the loop. -/
def mergeCapabilities (existing delta : List CapabilitiesCalls) : List CapabilitiesCalls :=
  let step := fun (acc : List CapabilitiesCalls × List CapabilitiesCalls) d =>
    match mergeCapsIntoFirst d acc.fst with
    | some updated => (updated, acc.snd)
    | none => (acc.fst, acc.snd ++ [d])
  let result := delta.foldl step (existing, [])
  result.fst ++ result.snd

/-- The per-container merge body of `mergeApplicationProfiles`: each kind
appends only the delta entries that do not already exist in the stored
container (checked against the stored lists, which are unchanged during the
filtering); capabilities are unioned per syscall; network appends stop at
`MaxNetworkEvents` per direction. -/
def mergeContainer (cfg : Config) (mounts : List String)
    (existing delta : ContainerProfile) : ContainerProfile :=
  { existing with
    syscalls := existing.syscalls ++
      delta.syscalls.filter (fun s => !(existing.syscalls.contains s))
    execs := existing.execs ++
      delta.execs.filter (fun e => !execEventExists ⟨e.path, e.args, e.envs⟩ existing.execs)
    dns := existing.dns ++
      delta.dns.filter (fun d => !dnsEventExists ⟨d.dnsName, d.addresses⟩ existing.dns)
    capabilities := mergeCapabilities existing.capabilities delta.capabilities
    opens := existing.opens ++
      delta.opens.filter (fun o =>
        shouldIncludeOpenEvent cfg ⟨o.path, o.flags⟩ existing.opens mounts)
    networkActivity :=
      { incoming := delta.networkActivity.incoming.foldl
          (fun acc n =>
            if acc.length < MaxNetworkEvents &&
                !networkEventExists ⟨"", n.protocol, n.port, n.dstEndpoint⟩ acc then
              acc ++ [n]
            else acc)
          existing.networkActivity.incoming
        outgoing := delta.networkActivity.outgoing.foldl
          (fun acc n =>
            if acc.length < MaxNetworkEvents &&
                !networkEventExists ⟨"", n.protocol, n.port, n.dstEndpoint⟩ acc then
              acc ++ [n]
            else acc)
          existing.networkActivity.outgoing } }

/-- The container-list walk of `mergeApplicationProfiles`: merge the delta
into the first stored container with the same name, or append the delta as a
new container when no name matches. -/
def mergeContainers (cfg : Config) (mounts : List String) (delta : ContainerProfile) :
    List ContainerProfile → List ContainerProfile
  | [] => [delta]
  | c :: rest =>
    if c.name = delta.name then
      mergeContainer cfg mounts c delta :: rest
    else
      c :: mergeContainers cfg mounts delta rest

/-- `mergeApplicationProfiles` from collector.go. -/
def mergeApplicationProfiles (cfg : Config) (mounts : List String)
    (existing : ApplicationProfile) (delta : ContainerProfile) : ApplicationProfile :=
  { existing with containers := mergeContainers cfg mounts delta existing.containers }

/-! ## The collector state machine

The registry, mount cache, pod-finalizer table and cluster store are
modelled as explicit state; each collector entry point becomes a function
from state to state (plus, for the drain, the list of store operations it
performed and whether it re-armed its interval timer). -/

/-- `ContainerId` from collector.go. -/
structure ContainerId where
  nspace : String
  podName : String
  container : String
  containerID : String
  nsMntId : Nat
  pid : Nat
deriving DecidableEq, Repr

/-- `ContainerState` from collector.go. -/
structure ContainerState where
  running : Bool
  attached : Bool
deriving DecidableEq, Repr

/-- Modelled from the spec: `PodProfileFinalizerState` lives in a finalizer
file that is not under src/ (only its callers are); per §3/§4.5 of the spec
it records, per pod, whether recording is on and whether any container of
the pod was attached (deadline and timer handle are real-time data and are
not modelled). -/
structure PodProfileFinalizerState where
  recording : Bool
  anyAttached : Bool
deriving DecidableEq, Repr

/-- The cluster store: profiles keyed by (namespace, name). -/
structure Store where
  profiles : List ((String × String) × ApplicationProfile) := []
deriving DecidableEq, Repr

/-- Store read: first entry with the given key. -/
def storeGet (st : Store) (ns nm : String) : Option ApplicationProfile :=
  match st.profiles.find? (fun e => e.fst = (ns, nm)) with
  | some e => some e.snd
  | none => none

/-- Store create: append the profile (the caller has checked absence). -/
def storeCreate (st : Store) (ns nm : String) (p : ApplicationProfile) : Store :=
  { profiles := st.profiles ++ [((ns, nm), p)] }

/-- Store update (full replace at the key). -/
def storeUpdate (st : Store) (ns nm : String) (p : ApplicationProfile) : Store :=
  { profiles := st.profiles.map (fun e => if e.fst = (ns, nm) then (e.fst, p) else e) }

/-- Store merge-patch of a single label at the key (no-op when absent). -/
def storePatchLabel (st : Store) (ns nm k v : String) : Store :=
  { profiles := st.profiles.map (fun e =>
      if e.fst = (ns, nm) then (e.fst, { e.snd with labels := setLabel e.snd.labels k v }) else e) }

/-- A store operation performed by a drain or the finalizer. -/
inductive StoreOp where
  | get (ns nm : String)
  | create (ns nm : String) (p : ApplicationProfile)
  | update (ns nm : String) (p : ApplicationProfile)
  | patchLabel (ns nm k v : String)
deriving DecidableEq, Repr

/-- Whether a store operation writes (create, update or patch). -/
def StoreOp.isWrite : StoreOp → Bool
  | .get _ _ => false
  | _ => true

/-- The collector manager state: registry, event-sink filters, active
traces, pod finalizer table, pod mount cache and the cluster store. -/
structure CollectorState where
  containers : List (ContainerId × ContainerState) := []
  sinkFilters : List String := []
  traces : List (Nat × Nat) := []
  podFinalizerState : List ((String × String) × PodProfileFinalizerState) := []
  podMountCache : List (String × List String) := []
  store : Store := {}
deriving DecidableEq, Repr

/-- Registry lookup. -/
def lookupContainer (l : List (ContainerId × ContainerState)) (id : ContainerId) :
    Option ContainerState :=
  match l.find? (fun e => e.fst = id) with
  | some e => some e.snd
  | none => none

/-- Registry insert (Go map assignment: replace or add). -/
def insertContainer (l : List (ContainerId × ContainerState)) (id : ContainerId)
    (st : ContainerState) : List (ContainerId × ContainerState) :=
  if l.any (fun e => e.fst = id) then
    l.map (fun e => if e.fst = id then (id, st) else e)
  else
    l ++ [(id, st)]

/-- Registry delete. -/
def eraseContainer (l : List (ContainerId × ContainerState)) (id : ContainerId) :
    List (ContainerId × ContainerState) :=
  l.filter (fun e => !(decide (e.fst = id)))

/-- Mount-cache key, `fmt.Sprintf("%s-%s", podName, namespace)`. -/
def mountKey (podName nspace : String) : String :=
  podName ++ "-" ++ nspace

/-- Mount-cache read: a missing key yields the empty slice (Go map read). -/
def mountsFor (s : CollectorState) (id : ContainerId) : List String :=
  match s.podMountCache.find? (fun e => e.fst = mountKey id.podName id.nspace) with
  | some e => e.snd
  | none => []

/-- Modelled from the spec: `MarkPodRecording` (finalizer file not under
src/) creates the per-pod finalizer entry on first call, and on later calls
sets `anyAttached` when the new container is attached; the jittered
deadline timer is real-time data and is not modelled. -/
def markPodRecording (l : List ((String × String) × PodProfileFinalizerState))
    (pod ns : String) (attached : Bool) : List ((String × String) × PodProfileFinalizerState) :=
  if l.any (fun e => e.fst = (pod, ns)) then
    l.map (fun e =>
      if e.fst = (pod, ns) then
        (e.fst, { e.snd with anyAttached := e.snd.anyAttached || attached })
      else e)
  else
    l ++ [((pod, ns), ⟨true, attached⟩)]

/-- Modelled from the spec: `MarkPodNotRecording` (finalizer file not under
src/) cancels the pod's deadline timer and clears the state entry. -/
def markPodNotRecording (l : List ((String × String) × PodProfileFinalizerState))
    (pod ns : String) : List ((String × String) × PodProfileFinalizerState) :=
  l.filter (fun e => !(decide (e.fst = (pod, ns))))

/-- `strings.ToLower`, written as a per-character map over the string's
character list (extensionally the same as `String.toLower`, which maps
`Char.toLower` over the string). -/
def toLowerStr (s : String) : String :=
  String.mk (s.data.map Char.toLower)

/-- `GetApplicationProfileName` from collector.go: `{kind}-{name}`
lowercased, with the source namespace appended when a store namespace is
configured. -/
def getApplicationProfileName (cfg : Config) (nspace kind name : String) : String :=
  if cfg.storeNamespace ≠ "" then
    toLowerStr kind ++ "-" ++ toLowerStr name ++ "-" ++ nspace
  else
    toLowerStr kind ++ "-" ++ toLowerStr name

/-- The namespace profiles are written to: the configured store namespace
when set, else the container's own namespace. -/
def targetNamespace (cfg : Config) (nspace : String) : String :=
  if cfg.storeNamespace ≠ "" then cfg.storeNamespace else nspace

/-- The teardown sequence shared by the final-profile branch and the
update-failure branch of `CollectContainerEvents` (and, minus the filter
logic, by `ContainerStopped`): remove the event-sink filter, stop the
trace, un-mark pod recording and delete the container from the registry. -/
def teardownContainer (s : CollectorState) (id : ContainerId) : CollectorState :=
  { s with
    sinkFilters := s.sinkFilters.filter (fun f => !(decide (f = id.containerID)))
    traces := s.traces.filter (fun t => !(decide (t = (id.nsMntId, id.pid))))
    podFinalizerState := markPodNotRecording s.podFinalizerState id.podName id.nspace
    containers := eraseContainer s.containers id }

/-- The labels of a freshly created profile: `partial=true` iff attached,
`failed=true` iff the delta opens reached `MaxOpenEvents`, and the source
namespace when a store namespace is configured. -/
def createLabels (cfg : Config) (attached : Bool) (delta : ContainerProfile)
    (srcNs : String) : List (String × String) :=
  (if attached then [(partLabel, "true")] else []) ++
    (if delta.opens.length ≥ MaxOpenEvents then [(failedLabel, "true")] else []) ++
      (if cfg.storeNamespace ≠ "" then [(namespaceLabel, srcNs)] else [])

/-- The per-drain environment: the drained event window plus whether the
cluster-API create / update calls succeed. -/
structure DrainEnv where
  events : TotalEvents
  createOk : Bool := true
  updateOk : Bool := true

/-- The result of one drain: the new state, the store operations performed
(reads and attempted writes, in order), and whether the interval timer was
re-armed. -/
structure DrainResult where
  state : CollectorState
  ops : List StoreOp
  rearmed : Bool
deriving DecidableEq, Repr

/-- `CollectContainerEvents` from collector.go, as one atomic drain.  An
absent registry entry returns immediately; an empty event window returns
without touching the store and without re-arming; otherwise the delta is
built, the stored profile is read, and either created (profile absent),
torn down (profile final), or merged and updated, with the failed-label
patches of the source reproduced in order. -/
def collectContainerEvents (cfg : Config) (s : CollectorState) (id : ContainerId)
    (env : DrainEnv) : DrainResult :=
  match lookupContainer s.containers id with
  | none => ⟨s, [], false⟩
  | some containerState =>
    if !shouldProcessEvents env.events then
      ⟨s, [], false⟩
    else
      let mounts := mountsFor s id
      let delta := buildContainerProfile cfg id.container mounts env.events
      let ns := targetNamespace cfg id.nspace
      let nm := getApplicationProfileName cfg id.nspace "pod" id.podName
      match storeGet s.store ns nm with
      | none =>
        let appProfile : ApplicationProfile :=
          { labels := createLabels cfg containerState.attached delta id.nspace
            containers := [delta] }
        let storeNew := if env.createOk then storeCreate s.store ns nm appProfile else s.store
        ⟨{ s with store := storeNew }, [.get ns nm, .create ns nm appProfile], true⟩
      | some existing =>
        if getLabel existing.labels finalLabel = "true" then
          ⟨teardownContainer s id, [.get ns nm], false⟩
        else
          let overCap := decide (delta.opens.length ≥ MaxOpenEvents)
          let store1 := if overCap then storePatchLabel s.store ns nm failedLabel "true"
            else s.store
          let ops1 := if overCap then [StoreOp.patchLabel ns nm failedLabel "true"] else []
          let existingObj :=
            if !containerState.attached && decide (getLabel existing.labels partLabel = "true") then
              { existing with labels := [(partLabel, "false")] }
            else existing
          let merged := mergeApplicationProfiles cfg mounts existingObj delta
          if env.updateOk then
            ⟨{ s with store := storeUpdate store1 ns nm merged },
              [StoreOp.get ns nm] ++ ops1 ++ [.update ns nm merged], true⟩
          else
            let s1 := teardownContainer { s with store := store1 } id
            ⟨{ s1 with store := storePatchLabel s1.store ns nm failedLabel "true" },
              [StoreOp.get ns nm] ++ ops1 ++
                [.update ns nm merged, .patchLabel ns nm failedLabel "true"], false⟩

/-- An owner reference of a pod or replica set. -/
structure OwnerReference where
  kind : String
  name : String
  controller : Bool
deriving DecidableEq, Repr

/-- The kubernetes environment seen by a container start: owner references
of pods and replica sets (`none` models a failing Get) and the pods'
declared volume mounts (`none` models a failing Get, which the source logs
and then caches as an empty mount list). -/
structure K8sEnv where
  podOwners : String → String → Option (List OwnerReference)
  rsOwners : String → String → Option (List OwnerReference)
  podMounts : String → String → Option (List String)

/-- `doesApplicationProfileExists` from collector.go: resolve the workload
by the (depth-2) owner walk, read the profile at the resolved name, and —
when `checkFinal` is set — report `true` only when the profile exists and
carries `final="true"`. -/
def doesApplicationProfileExists (cfg : Config) (env : K8sEnv) (store : Store)
    (nspace podName : String) (checkFinal checkOwner : Bool) : Except Unit Bool :=
  let resolved : Except Unit (String × String) :=
    if checkOwner then
      match env.podOwners nspace podName with
      | none => .error ()
      | some refs =>
        if refs.length > 0 then
          let first := match refs.find? (fun o => o.controller) with
            | some o => (o.kind, o.name)
            | none => ("Pod", podName)
          if first.fst = "ReplicaSet" then
            match env.rsOwners nspace first.snd with
            | none => .error ()
            | some rsRefs =>
              if rsRefs.length > 0 then
                match rsRefs.find? (fun o => o.controller) with
                | some o => .ok (o.kind, o.name)
                | none => .ok first
              else
                .ok first
          else
            .ok first
        else
          .ok ("Pod", podName)
    else
      .ok ("Pod", podName)
  match resolved with
  | .error e => .error e
  | .ok kn =>
    let nm := getApplicationProfileName cfg nspace kn.fst kn.snd
    let ns := targetNamespace cfg nspace
    match storeGet store ns nm with
    | none => .error ()
    | some p =>
      if checkFinal && !(decide (getLabel p.labels finalLabel = "true")) then
        .ok false
      else
        .ok true

/-- `ContainerStarted` from collector.go.  Recording is skipped only when
the existence check returns `true` (which, with `checkFinal=true`, means a
profile exists *and* is final) and the strategy is only-if-not-exists; an
erroring existence check falls through to recording.  Otherwise the
container is registered, an event-sink filter is installed, the pod mounts
are cached on first sight, the trace is started, and — when the finalize
time exceeds the interval — the pod is marked recording. -/
def containerStarted (cfg : Config) (env : K8sEnv) (s : CollectorState) (id : ContainerId)
    (attach : Bool) : CollectorState :=
  let skip :=
    match doesApplicationProfileExists cfg env s.store id.nspace id.podName true true with
    | .error _ => false
    | .ok ex => ex && decide (cfg.recordStrategy = RecordStrategyOnlyIfNotExists)
  if skip then
    s
  else
    let s1 := { s with
      containers := insertContainer s.containers id ⟨true, attach⟩
      sinkFilters := s.sinkFilters ++ [id.containerID] }
    let s2 :=
      if s1.podMountCache.any (fun e => e.fst = mountKey id.podName id.nspace) then s1
      else
        { s1 with podMountCache := s1.podMountCache ++
            [(mountKey id.podName id.nspace, (env.podMounts id.nspace id.podName).getD [])] }
    let s3 := { s2 with traces := s2.traces ++ [(id.nsMntId, id.pid)] }
    if cfg.finalizeTime > 0 && cfg.finalizeTime > cfg.interval then
      { s3 with podFinalizerState := markPodRecording s3.podFinalizerState id.podName id.nspace attach }
    else
      s3

/-- `ContainerStopped` from collector.go: when registered, un-mark pod
recording, stop the trace, remove the sink filter, delete the registry
entry, and evict the pod's mount cache when no other registered container
belongs to the pod.  The best-effort final drain it schedules is modelled
as a separate `collectContainerEvents` step. -/
def containerStopped (s : CollectorState) (id : ContainerId) : CollectorState :=
  match lookupContainer s.containers id with
  | none => s
  | some _ =>
    let s1 := teardownContainer s id
    let podExists := s1.containers.any (fun e =>
      decide (e.fst.podName = id.podName ∧ e.fst.nspace = id.nspace))
    if podExists then
      s1
    else
      { s1 with podMountCache := s1.podMountCache.filter (fun e =>
          !(decide (e.fst = mountKey id.podName id.nspace))) }

/-- `FinalizeApplicationProfile` from collector.go: when the container is
still registered, merge-patch the profile with `final="true"`; otherwise do
nothing. -/
def finalizeApplicationProfile (cfg : Config) (s : CollectorState) (id : ContainerId) :
    CollectorState × List StoreOp :=
  match lookupContainer s.containers id with
  | none => (s, [])
  | some _ =>
    let ns := targetNamespace cfg id.nspace
    let nm := getApplicationProfileName cfg id.nspace "pod" id.podName
    ({ s with store := storePatchLabel s.store ns nm finalLabel "true" },
      [.patchLabel ns nm finalLabel "true"])

/-- One collector operation: a lifecycle callback, a drain-timer fire or a
finalizer fire. -/
inductive CollectorOp where
  | started (env : K8sEnv) (id : ContainerId) (attach : Bool)
  | stopped (id : ContainerId)
  | drain (id : ContainerId) (env : DrainEnv)
  | finalize (id : ContainerId)

/-- The collector's (sequential) step function over operations. -/
def stepOp (cfg : Config) (s : CollectorState) : CollectorOp → CollectorState
  | .started env id attach => containerStarted cfg env s id attach
  | .stopped id => containerStopped s id
  | .drain id env => (collectContainerEvents cfg s id env).state
  | .finalize id => (finalizeApplicationProfile cfg s id).fst

/-! ## Concrete fixtures

Concrete inputs used by counterexamples and witnesses. -/

/-- The i-th of a family of pairwise-distinct paths. -/
def pathOfNat (i : Nat) : String := String.mk (List.replicate i 'a')

/-- A window of `n` open events with pairwise-distinct paths. -/
def openWindow (n : Nat) : List OpenEvent :=
  (List.range n).map (fun i => ⟨pathOfNat i, ["O_RDONLY"]⟩)

/-- A window of `n` outgoing network events with pairwise-distinct ports. -/
def netWindow (n : Nat) : List NetworkEvent :=
  (List.range n).map (fun i => ⟨"OUTGOING", "tcp", i, "1.2.3.4"⟩)

/-- A concrete container id. -/
def cId : ContainerId := ⟨"a", "p", "c", "cid", 1, 2⟩

/-- A concrete configuration with the only-if-not-exists strategy. -/
def cConfig : Config := { interval := 1, recordStrategy := RecordStrategyOnlyIfNotExists }

/-- A concrete kubernetes environment: the pod exists with no owner
references and no volume mounts. -/
def cK8sEnv : K8sEnv := ⟨fun _ _ => some [], fun _ _ => some [], fun _ _ => some []⟩

/-- A stored profile with no labels (in particular not final). -/
def cNonFinalProfile : ApplicationProfile := { labels := [], containers := [] }

/-- A stored profile carrying `final="true"`. -/
def cFinalProfile : ApplicationProfile := { labels := [(finalLabel, "true")], containers := [] }

/-- A collector state whose store already holds a non-final profile for the
workload of `cId` (owner walk resolves to the pod itself, name `pod-p`). -/
def cStartState : CollectorState := { store := ⟨[(("a", "pod-p"), cNonFinalProfile)]⟩ }

/-- A collector state whose store already holds a final profile for the
workload of `cId`. -/
def cFinalStartState : CollectorState := { store := ⟨[(("a", "pod-p"), cFinalProfile)]⟩ }

/-- A collector state in which `cId` is registered and being recorded, and
the store holds a final profile for its workload. -/
def cRegFinalState : CollectorState :=
  { containers := [(cId, ⟨true, false⟩)]
    sinkFilters := ["cid"]
    traces := [(1, 2)]
    podFinalizerState := [(("p", "a"), ⟨true, false⟩)]
    store := ⟨[(("a", "pod-p"), cFinalProfile)]⟩ }

/-- A collector state in which `cId` is registered and the store is empty. -/
def cEmptyStoreState : CollectorState := { containers := [(cId, ⟨true, false⟩)] }

/-- An event window holding two dns events for the same name with different
addresses. -/
def cDnsWindow : TotalEvents :=
  ⟨[], [], [], [], [⟨"example.com", ["1.1.1.1"]⟩, ⟨"example.com", ["2.2.2.2"]⟩], []⟩

/-- A drain environment delivering `cDnsWindow`. -/
def cDnsDrainEnv : DrainEnv := { events := cDnsWindow }

/-- An execve event with an empty path name. -/
def cEmptyExec : ExecveEvent := ⟨"", [], []⟩

/-- An event window holding the empty-path execve event twice. -/
def cExecWindow : TotalEvents := ⟨[cEmptyExec, cEmptyExec], [], [], [], [], []⟩

/-- A drain environment delivering `cExecWindow`. -/
def cExecDrainEnv : DrainEnv := { events := cExecWindow }

/-- A drain environment with an empty event window. -/
def cEmptyDrainEnv : DrainEnv := { events := ⟨[], [], [], [], [], []⟩ }

/-- An event window holding `MaxNetworkEvents + 1` distinct-port outgoing
network events and nothing else. -/
def cNetWindowEvents : TotalEvents := ⟨[], [], [], [], [], netWindow (MaxNetworkEvents + 1)⟩

/-- A drain environment delivering `cNetWindowEvents`. -/
def cNetDrainEnv : DrainEnv := { events := cNetWindowEvents }

/-- The exec-duplication predicate of the amended C5 claim: any two entries
at distinct positions that are equal under the exec equality rule have the
empty path. -/
def NoDupNonemptyExecs (l : List ExecCalls) : Prop :=
  l.Pairwise (fun a b => a = b → a.path = "")

/-- The profile the collector creates from `cExecWindow`: one container
whose exec list holds the same empty-path entry twice. -/
def cDupExecProfile : ApplicationProfile :=
  { labels := [], containers := [{ name := "c", execs := [⟨"", [], []⟩, ⟨"", [], []⟩] }] }

/-! ## Theorems -/

/-- C4: When a drain window holds two DNS events with the same name
`example.com` and addresses `[1.1.1.1]` then `[2.2.2.2]`, the profile
contains one DNS entry — but its addresses are `[1.1.1.1]` only: the
address union that `dnsEventExists` attempts is written to a `range`-loop
copy of the entry and is lost, so the second event's addresses never reach
the stored entry. -/
theorem C4_dns_union_lost :
    buildDns [⟨"example.com", ["1.1.1.1"]⟩, ⟨"example.com", ["2.2.2.2"]⟩] =
      [⟨"example.com", ["1.1.1.1"]⟩] := by
  decide

/-- C7: merging a delta capabilities entry `{syscall s, [b, c]}` into a
stored entry `{syscall s, [a]}` yields `[a, c]`, not the union `[a, b, c]`:
each missing capability is appended to the stale pre-merge list read
through the `range`-loop copy, so every append overwrites the previous one
and only the last missing capability survives. -/
theorem C7_capability_union_lost :
    mergeCapabilities [⟨"s", ["a"]⟩] [⟨"s", ["b", "c"]⟩] = [⟨"s", ["a", "c"]⟩] ∧
      "b" ∉ (mergeCapabilities [⟨"s", ["a"]⟩] [⟨"s", ["b", "c"]⟩]).foldr
        (fun c acc => c.capabilities ++ acc) [] := by
  decide

/-- The second component of `openEventExists` holds exactly when some
stored entry has the candidate's path and contains every candidate flag. -/
theorem openEventExists_snd_iff (e : OpenEvent) (l : List OpenCalls) :
    (openEventExists e l).snd = true ↔
      ∃ c ∈ l, c.path = e.pathName ∧ ∀ f ∈ e.flags, f ∈ c.flags := by
  induction l with
  | nil => simp [openEventExists]
  | cons c rest ih =>
    by_cases hp : c.path = e.pathName
    · by_cases hf : (e.flags.all (fun flag => decide (flag ∈ c.flags))) = true
      · simp only [openEventExists]
        rw [if_pos hp, if_pos hf]
        simp only [List.all_eq_true, decide_eq_true_eq] at hf
        simp only [true_iff]
        exact ⟨c, List.mem_cons_self c rest, hp, hf⟩
      · simp only [openEventExists]
        rw [if_pos hp, if_neg hf]
        simp only []
        rw [ih]
        constructor
        · rintro ⟨d, hd, hdp, hdf⟩
          exact ⟨d, List.mem_cons_of_mem c hd, hdp, hdf⟩
        · rintro ⟨d, hd, hdp, hdf⟩
          rcases List.mem_cons.mp hd with h | h
          · subst h
            exfalso
            apply hf
            simp only [List.all_eq_true, decide_eq_true_eq]
            exact hdf
          · exact ⟨d, h, hdp, hdf⟩
    · simp only [openEventExists]
      rw [if_neg hp]
      rw [ih]
      constructor
      · rintro ⟨d, hd, hdp, hdf⟩
        exact ⟨d, List.mem_cons_of_mem c hd, hdp, hdf⟩
      · rintro ⟨d, hd, hdp, hdf⟩
        rcases List.mem_cons.mp hd with h | h
        · subst h; exact absurd hdp hp
        · exact ⟨d, h, hdp, hdf⟩

/-- When `openEventExists` reports a same-path-and-flags match it also
reports a same-path match. -/
theorem openEventExists_snd_imp_fst (e : OpenEvent) (l : List OpenCalls)
    (h : (openEventExists e l).snd = true) : (openEventExists e l).fst = true := by
  induction l with
  | nil => simp [openEventExists] at h
  | cons c rest ih =>
    by_cases hp : c.path = e.pathName
    · by_cases hf : (e.flags.all (fun flag => decide (flag ∈ c.flags))) = true
      · simp only [openEventExists]
        rw [if_pos hp, if_pos hf]
      · simp only [openEventExists]
        rw [if_pos hp, if_neg hf]
    · simp only [openEventExists] at h ⊢
      rw [if_neg hp] at h ⊢
      exact ih h

/-- C8: under the cap and with neither an ignore-prefix nor a mount-prefix
applying, an open event is dropped exactly when some already-stored entry
has the same path and contains every flag of the candidate (subset test);
otherwise it is included (appended with its own path). -/
theorem C8_open_dedup_is_subset_test (cfg : Config) (e : OpenEvent)
    (stored : List OpenCalls) (mounts : List String)
    (hlen : stored.length ≤ MaxOpenEvents)
    (hpre : ∀ p ∈ cfg.ignorePrefixes, p.isPrefixOf e.pathName = false)
    (hmnt : ∀ m ∈ mounts, m.isPrefixOf e.pathName = false) :
    shouldIncludeOpenEvent cfg e stored mounts = false ↔
      ∃ c ∈ stored, c.path = e.pathName ∧ ∀ f ∈ e.flags, f ∈ c.flags := by
  have hlen2 : ¬ stored.length > MaxOpenEvents := Nat.not_lt.mpr hlen
  have hpre2 : cfg.ignorePrefixes.any (fun p => p.isPrefixOf e.pathName) = false := by
    simp only [List.any_eq_false]
    intro p hp
    simp [hpre p hp]
  have hmnt2 : mounts.any (fun m => m.isPrefixOf e.pathName) = false := by
    simp only [List.any_eq_false]
    intro m hm
    simp [hmnt m hm]
  rw [← openEventExists_snd_iff]
  unfold shouldIncludeOpenEvent
  rw [if_neg hlen2, hpre2]
  simp only [Bool.false_eq_true, if_false]
  by_cases hsnd : (openEventExists e stored).snd = true
  · have hfst := openEventExists_snd_imp_fst e stored hsnd
    simp [hfst, hsnd]
  · have hsndf : (openEventExists e stored).snd = false := Bool.eq_false_iff.mpr hsnd
    have hand : ((openEventExists e stored).fst && (openEventExists e stored).snd) = false := by
      rw [hsndf, Bool.and_false]
    simp [hand, hmnt2, hsndf]

/-- C8 witness: a concrete instance of `C8_open_dedup_is_subset_test` — the
candidate `/a` with flag `r` is dropped against a stored entry `/a` with
flags `[r, w]`. -/
theorem C8_open_dedup_is_subset_test_witness :
    ([⟨"/a", ["r", "w"]⟩] : List OpenCalls).length ≤ MaxOpenEvents ∧
      (∀ p ∈ (Config.mk 0 0 0 "" false [] "").ignorePrefixes,
        p.isPrefixOf "/a" = false) ∧
      (∀ m ∈ ([] : List String), m.isPrefixOf "/a" = false) ∧
      (shouldIncludeOpenEvent (Config.mk 0 0 0 "" false [] "") ⟨"/a", ["r"]⟩
          [⟨"/a", ["r", "w"]⟩] [] = false ↔
        ∃ c ∈ [(⟨"/a", ["r", "w"]⟩ : OpenCalls)], c.path = "/a" ∧
          ∀ f ∈ ["r"], f ∈ c.flags) :=
  ⟨by decide, by decide, by decide,
    C8_open_dedup_is_subset_test (Config.mk 0 0 0 "" false [] "") ⟨"/a", ["r"]⟩
      [⟨"/a", ["r", "w"]⟩] [] (by decide) (by decide) (by decide)⟩

/-- `execEventExists` is membership of the corresponding exec call. -/
theorem execEventExists_iff_mem (e : ExecveEvent) (l : List ExecCalls) :
    execEventExists e l = true ↔ (⟨e.pathName, e.args, e.env⟩ : ExecCalls) ∈ l := by
  simp only [execEventExists, List.any_eq_true, decide_eq_true_eq]
  constructor
  · rintro ⟨call, hc, h1, h2, h3⟩
    have : (⟨e.pathName, e.args, e.env⟩ : ExecCalls) = call := by
      cases call
      simp only [ExecCalls.mk.injEq]
      exact ⟨h1, h2, h3⟩
    rw [this]; exact hc
  · intro hm
    exact ⟨⟨e.pathName, e.args, e.env⟩, hm, rfl, rfl, rfl⟩

/-- C5 counterexample: drained from a window with two identical empty-path
execve events against an empty store, the collector creates a profile whose
container holds two equal exec entries — the claimed no-duplicate invariant
fails for entries with an empty path. -/
theorem C5_counterexample :
    storeGet (collectContainerEvents cConfig cEmptyStoreState cId cExecDrainEnv).state.store
        "a" "pod-p" = some cDupExecProfile ∧
      ¬ (cDupExecProfile.containers.foldr (fun c acc => c.execs ++ acc) []).Nodup := by
  decide

/-- C5 (amended): in every built delta and through every merge, no two
distinct entries of the Execs sequence with a non-empty path are equal
under the exec equality rule; entries whose path is the empty string bypass
the duplicate check (deliberately, per the source comment) and may repeat. -/
theorem C5_execs_dedup_except_empty_path :
    (∀ events : List ExecveEvent, NoDupNonemptyExecs (buildExecs events)) ∧
      (∀ (cfg : Config) (mounts : List String) (existing delta : ContainerProfile),
        NoDupNonemptyExecs existing.execs → NoDupNonemptyExecs delta.execs →
          NoDupNonemptyExecs (mergeContainer cfg mounts existing delta).execs) := by
  constructor
  · intro events
    suffices h : ∀ acc : List ExecCalls, NoDupNonemptyExecs acc →
        NoDupNonemptyExecs (events.foldl
          (fun acc e =>
            if !execEventExists e acc || e.pathName = "" then
              acc ++ [⟨e.pathName, e.args, e.env⟩]
            else acc) acc) by
      exact h [] List.Pairwise.nil
    induction events with
    | nil => intro acc hacc; exact hacc
    | cons e rest ih =>
      intro acc hacc
      simp only [List.foldl_cons]
      by_cases hcond : (!execEventExists e acc || e.pathName = "") = true
      · rw [if_pos hcond]
        apply ih
        unfold NoDupNonemptyExecs
        rw [List.pairwise_append]
        refine ⟨hacc, List.pairwise_singleton _ _, ?_⟩
        intro a ha b hb hab
        have hbe : b = (⟨e.pathName, e.args, e.env⟩ : ExecCalls) := List.mem_singleton.mp hb
        rcases Bool.or_eq_true_iff.mp hcond with hne | hemp
        · exfalso
          have hmem : execEventExists e acc = true := by
            rw [execEventExists_iff_mem]
            rw [← hbe, ← hab]
            exact ha
          rw [hmem] at hne
          simp at hne
        · rw [hab, hbe]
          simpa using hemp
      · rw [if_neg hcond]
        exact ih acc hacc
  · intro cfg mounts existing delta hex hdl
    show NoDupNonemptyExecs (existing.execs ++
      delta.execs.filter (fun e => !execEventExists ⟨e.path, e.args, e.envs⟩ existing.execs))
    unfold NoDupNonemptyExecs
    rw [List.pairwise_append]
    refine ⟨hex, List.Pairwise.sublist (List.filter_sublist _) hdl, ?_⟩
    intro a ha b hb hab
    exfalso
    have hbf := List.of_mem_filter hb
    have hmem : execEventExists ⟨b.path, b.args, b.envs⟩ existing.execs = true := by
      rw [execEventExists_iff_mem]
      have hbeta : (⟨b.path, b.args, b.envs⟩ : ExecCalls) = b := rfl
      rw [hbeta, ← hab]
      exact ha
    rw [hmem] at hbf
    simp at hbf

/-- C5 amended-theorem witness: the amended invariant instantiated on the
duplicate-prone window and on a concrete merge. -/
theorem C5_execs_dedup_except_empty_path_witness :
    NoDupNonemptyExecs (buildExecs [cEmptyExec, cEmptyExec]) ∧
      NoDupNonemptyExecs ({ name := "c", execs := [⟨"/bin/sh", [], []⟩] } : ContainerProfile).execs ∧
      NoDupNonemptyExecs ({ name := "c", execs := [⟨"/bin/ls", [], []⟩] } : ContainerProfile).execs ∧
      NoDupNonemptyExecs (mergeContainer cConfig []
        { name := "c", execs := [⟨"/bin/sh", [], []⟩] }
        { name := "c", execs := [⟨"/bin/ls", [], []⟩] }).execs :=
  ⟨C5_execs_dedup_except_empty_path.1 [cEmptyExec, cEmptyExec],
    by unfold NoDupNonemptyExecs; decide,
    by unfold NoDupNonemptyExecs; decide,
    C5_execs_dedup_except_empty_path.2 cConfig []
      { name := "c", execs := [⟨"/bin/sh", [], []⟩] }
      { name := "c", execs := [⟨"/bin/ls", [], []⟩] }
      (by unfold NoDupNonemptyExecs; decide) (by unfold NoDupNonemptyExecs; decide)⟩

/-- C3 counterexample: with record strategy only-if-not-exists and a
non-final profile for the workload already in the store, `ContainerStarted`
still records — the container enters the registry, the event-sink filter is
installed and the trace is started — because the existence check is invoked
with `checkFinal=true` and reports `false` for a profile without
`final="true"`. -/
theorem C3_counterexample :
    cConfig.recordStrategy = RecordStrategyOnlyIfNotExists ∧
      storeGet cStartState.store "a" "pod-p" = some cNonFinalProfile ∧
      getLabel cNonFinalProfile.labels finalLabel ≠ "true" ∧
      lookupContainer (containerStarted cConfig cK8sEnv cStartState cId false).containers cId =
        some ⟨true, false⟩ ∧
      (containerStarted cConfig cK8sEnv cStartState cId false).sinkFilters = ["cid"] ∧
      (containerStarted cConfig cK8sEnv cStartState cId false).traces = [(1, 2)] := by
  decide

/-- C3 (amended): under record strategy only-if-not-exists, recording is
suppressed exactly when the existence check succeeds — which, since
`ContainerStarted` passes `checkFinal=true`, means the workload's profile
(resolved by the owner walk) exists *and* carries `final="true"`; the state
is then completely unchanged: no registry entry, no filter, no trace, no
write. -/
theorem C3_only_if_not_exists_skips_final (cfg : Config) (env : K8sEnv)
    (s : CollectorState) (id : ContainerId) (attach : Bool)
    (hstrat : cfg.recordStrategy = RecordStrategyOnlyIfNotExists)
    (hex : doesApplicationProfileExists cfg env s.store id.nspace id.podName true true =
      Except.ok true) :
    containerStarted cfg env s id attach = s := by
  unfold containerStarted
  rw [hex]
  simp [hstrat]

/-- C3 amended-theorem witness: with a final profile pre-seeded at the
resolved name, the start is a complete no-op. -/
theorem C3_only_if_not_exists_skips_final_witness :
    cConfig.recordStrategy = RecordStrategyOnlyIfNotExists ∧
      doesApplicationProfileExists cConfig cK8sEnv cFinalStartState.store cId.nspace
        cId.podName true true = Except.ok true ∧
      containerStarted cConfig cK8sEnv cFinalStartState cId false = cFinalStartState :=
  ⟨by decide, by rfl,
    C3_only_if_not_exists_skips_final cConfig cK8sEnv cFinalStartState cId false
      (by decide) (by rfl)⟩

/-- C9: a drain of a registered container whose six event slices are all
empty returns with the state untouched, no store operation (not even a
read) and no re-armed timer; and whenever a drain re-arms the timer, its
event window was nonempty. -/
theorem C9_empty_window_quiesces :
    (∀ (cfg : Config) (s : CollectorState) (id : ContainerId) (env : DrainEnv)
        (st : ContainerState),
      lookupContainer s.containers id = some st →
        shouldProcessEvents env.events = false →
          collectContainerEvents cfg s id env = ⟨s, [], false⟩) ∧
      (∀ (cfg : Config) (s : CollectorState) (id : ContainerId) (env : DrainEnv),
        (collectContainerEvents cfg s id env).rearmed = true →
          shouldProcessEvents env.events = true) := by
  constructor
  · intro cfg s id env st hreg hempty
    unfold collectContainerEvents
    rw [hreg]
    simp [hempty]
  · intro cfg s id env hre
    by_cases hp : shouldProcessEvents env.events = true
    · exact hp
    · exfalso
      have hp2 : shouldProcessEvents env.events = false := Bool.eq_false_iff.mpr hp
      unfold collectContainerEvents at hre
      cases hlook : lookupContainer s.containers id with
      | none =>
        rw [hlook] at hre
        simp at hre
      | some st =>
        rw [hlook] at hre
        simp [hp2] at hre

/-- C9 witness: a registered container drained on an empty window. -/
theorem C9_empty_window_quiesces_witness :
    lookupContainer cEmptyStoreState.containers cId = some ⟨true, false⟩ ∧
      shouldProcessEvents cEmptyDrainEnv.events = false ∧
      collectContainerEvents cConfig cEmptyStoreState cId cEmptyDrainEnv =
        ⟨cEmptyStoreState, [], false⟩ :=
  ⟨by decide, by decide,
    C9_empty_window_quiesces.1 cConfig cEmptyStoreState cId cEmptyDrainEnv ⟨true, false⟩
      (by decide) (by decide)⟩

/-- Looking up a container after erasing it from the registry finds
nothing. -/
theorem lookupContainer_erase (l : List (ContainerId × ContainerState)) (id : ContainerId) :
    lookupContainer (eraseContainer l id) id = none := by
  have h : (eraseContainer l id).find? (fun e => e.fst = id) = none := by
    rw [List.find?_eq_none]
    intro x hx
    have hxf := List.of_mem_filter hx
    simp only [Bool.not_eq_eq_eq_not, Bool.not_true, decide_eq_false_iff_not] at hxf
    simp [hxf]
  unfold lookupContainer
  rw [h]

/-- C10: a drain for a container id absent from the registry is a complete
no-op — the state (registry, mount cache, finalizer table, store) is
returned unchanged, no store operation is performed and no timer is
re-armed; `ContainerStopped` always leaves the id unregistered, so the
best-effort final drain it schedules is such a no-op and writes nothing. -/
theorem C10_unregistered_drain_noop :
    (∀ (cfg : Config) (s : CollectorState) (id : ContainerId) (env : DrainEnv),
      lookupContainer s.containers id = none →
        collectContainerEvents cfg s id env = ⟨s, [], false⟩) ∧
      (∀ (s : CollectorState) (id : ContainerId),
        lookupContainer (containerStopped s id).containers id = none) ∧
      (∀ (cfg : Config) (s : CollectorState) (id : ContainerId) (env : DrainEnv),
        collectContainerEvents cfg (containerStopped s id) id env =
          ⟨containerStopped s id, [], false⟩) := by
  have h1 : ∀ (cfg : Config) (s : CollectorState) (id : ContainerId) (env : DrainEnv),
      lookupContainer s.containers id = none →
        collectContainerEvents cfg s id env = ⟨s, [], false⟩ := by
    intro cfg s id env hnone
    unfold collectContainerEvents
    rw [hnone]
  have h2 : ∀ (s : CollectorState) (id : ContainerId),
      lookupContainer (containerStopped s id).containers id = none := by
    intro s id
    unfold containerStopped
    cases hlook : lookupContainer s.containers id with
    | none => exact hlook
    | some st =>
      by_cases hpod : ((teardownContainer s id).containers.any (fun e =>
          decide (e.fst.podName = id.podName ∧ e.fst.nspace = id.nspace))) = true
      · simp only [hpod, if_pos rfl]
        exact lookupContainer_erase s.containers id
      · rw [if_neg hpod]
        exact lookupContainer_erase s.containers id
  exact ⟨h1, h2, fun cfg s id env => h1 cfg (containerStopped s id) id env (h2 s id)⟩

/-- C10 witness: a drain on an unregistered id at a concrete state. -/
theorem C10_unregistered_drain_noop_witness :
    lookupContainer cStartState.containers cId = none ∧
      collectContainerEvents cConfig cStartState cId cDnsDrainEnv = ⟨cStartState, [], false⟩ :=
  ⟨by decide,
    C10_unregistered_drain_noop.1 cConfig cStartState cId cDnsDrainEnv (by decide)⟩

/-- The create path of a drain, symbolically: with the container
registered, a nonempty window and no stored profile at the target key, the
drain creates a profile holding exactly the built delta and the create-path
labels, performs a get and a create, and re-arms the timer. -/
theorem collect_create_path (cfg : Config) (s : CollectorState) (id : ContainerId)
    (env : DrainEnv) (st : ContainerState)
    (hreg : lookupContainer s.containers id = some st)
    (hsp : shouldProcessEvents env.events = true)
    (hget : storeGet s.store (targetNamespace cfg id.nspace)
      (getApplicationProfileName cfg id.nspace "pod" id.podName) = none)
    (hok : env.createOk = true) :
    collectContainerEvents cfg s id env =
      ⟨{ s with store := (storeCreate s.store (targetNamespace cfg id.nspace)
          (getApplicationProfileName cfg id.nspace "pod" id.podName)
          { labels := (createLabels cfg st.attached
              (buildContainerProfile cfg id.container (mountsFor s id) env.events) id.nspace)
            containers := [buildContainerProfile cfg id.container (mountsFor s id) env.events] }) },
        [StoreOp.get (targetNamespace cfg id.nspace)
            (getApplicationProfileName cfg id.nspace "pod" id.podName),
          StoreOp.create (targetNamespace cfg id.nspace)
            (getApplicationProfileName cfg id.nspace "pod" id.podName)
            { labels := (createLabels cfg st.attached
                (buildContainerProfile cfg id.container (mountsFor s id) env.events) id.nspace)
              containers := [buildContainerProfile cfg id.container (mountsFor s id) env.events] }],
        true⟩ := by
  unfold collectContainerEvents
  rw [hreg, hsp]
  simp only [Bool.not_true, Bool.false_eq_true, if_false]
  rw [hget, hok]
  simp

/-- Distinct indices give distinct paths. -/
theorem pathOfNat_injective : Function.Injective pathOfNat := by
  intro i j h
  unfold pathOfNat at h
  have hdata : List.replicate i 'a' = List.replicate j 'a' := by
    injection h
  have hlen := congrArg List.length hdata
  simpa using hlen

/-- With no ignore-prefixes, mounts ignored off and the cap not yet
overshot, an open event whose path differs from every accumulated entry is
included. -/
theorem shouldInclude_freshPath (cfg : Config) (e : OpenEvent) (acc : List OpenCalls)
    (mounts : List String)
    (hpre : cfg.ignorePrefixes = []) (hmnt : cfg.ignoreMounts = false)
    (hlen : acc.length ≤ MaxOpenEvents)
    (hfresh : ∀ c ∈ acc, c.path ≠ e.pathName) :
    shouldIncludeOpenEvent cfg e acc mounts = true := by
  unfold shouldIncludeOpenEvent
  rw [if_neg (Nat.not_lt.mpr hlen)]
  rw [hpre]
  have hsnd : (openEventExists e acc).snd = false := by
    rw [Bool.eq_false_iff]
    intro hs
    rcases (openEventExists_snd_iff e acc).mp hs with ⟨c, hc, hcp, _⟩
    exact hfresh c hc hcp
  have hand : ((openEventExists e acc).fst && (openEventExists e acc).snd) = false := by
    rw [hsnd, Bool.and_false]
  simp [hand, hmnt]

/-- The open-building fold on a window of pairwise-distinct fresh paths
grows to `min (|acc| + n) (MaxOpenEvents + 1)`: inclusion stops only once
the accumulated list is strictly longer than the cap, i.e. at
`MaxOpenEvents + 1` entries. -/
theorem buildOpens_fold_fresh_length (cfg : Config) (mounts : List String)
    (hpre : cfg.ignorePrefixes = []) (hmnt : cfg.ignoreMounts = false) :
    ∀ (events : List OpenEvent) (acc : List OpenCalls),
      acc.length ≤ MaxOpenEvents + 1 →
      (∀ e ∈ events, ∀ c ∈ acc, c.path ≠ e.pathName) →
      ((events.map (fun e => e.pathName)).Nodup) →
      (events.foldl
        (fun acc e =>
          if shouldIncludeOpenEvent cfg e acc mounts then acc ++ [⟨e.pathName, e.flags⟩]
          else acc) acc).length = min (acc.length + events.length) (MaxOpenEvents + 1) := by
  intro events
  induction events with
  | nil =>
    intro acc hacc _ _
    simp only [List.foldl_nil, List.length_nil, Nat.add_zero]
    omega
  | cons e rest ih =>
    intro acc hacc hfresh hnodup
    simp only [List.foldl_cons]
    simp only [List.map_cons, List.nodup_cons] at hnodup
    by_cases hcap : acc.length ≤ MaxOpenEvents
    · have hinc : shouldIncludeOpenEvent cfg e acc mounts = true :=
        shouldInclude_freshPath cfg e acc mounts hpre hmnt hcap
          (hfresh e (List.mem_cons_self e rest))
      rw [hinc]
      simp only [if_true]
      have hfresh2 : ∀ e2 ∈ rest, ∀ c ∈ acc ++ [(⟨e.pathName, e.flags⟩ : OpenCalls)],
          c.path ≠ e2.pathName := by
        intro e2 he2 c hc
        rcases List.mem_append.mp hc with h | h
        · exact hfresh e2 (List.mem_cons_of_mem e he2) c h
        · have hce : c = (⟨e.pathName, e.flags⟩ : OpenCalls) := List.mem_singleton.mp h
          rw [hce]
          intro hcontra
          exact hnodup.1 (List.mem_map.mpr ⟨e2, he2, hcontra.symm⟩)
      have hrec := ih (acc ++ [⟨e.pathName, e.flags⟩])
        (by simp only [List.length_append, List.length_singleton]; omega)
        hfresh2 hnodup.2
      rw [hrec]
      have hl1 : (acc ++ [(⟨e.pathName, e.flags⟩ : OpenCalls)]).length = acc.length + 1 := by
        simp
      rw [hl1, List.length_cons]
      omega
    · have hover : acc.length > MaxOpenEvents := Nat.lt_of_not_le hcap
      have hexc : shouldIncludeOpenEvent cfg e acc mounts = false := by
        unfold shouldIncludeOpenEvent
        rw [if_pos hover]
      rw [hexc]
      simp only [Bool.false_eq_true, if_false]
      have hrec := ih acc hacc
        (fun e2 he2 c hc => hfresh e2 (List.mem_cons_of_mem e he2) c hc) hnodup.2
      rw [hrec]
      simp only [List.length_cons]
      omega

/-- The paths of `openWindow n` are pairwise distinct. -/
theorem openWindow_paths_nodup (n : Nat) :
    ((openWindow n).map (fun e => e.pathName)).Nodup := by
  unfold openWindow
  rw [List.map_map]
  have hcomp : ((fun e : OpenEvent => e.pathName) ∘
      (fun i => (⟨pathOfNat i, ["O_RDONLY"]⟩ : OpenEvent))) = pathOfNat := rfl
  rw [hcomp]
  exact (List.nodup_range n).map pathOfNat_injective

/-- C1: a drain window of `MaxOpenEvents + 1` open events with pairwise
distinct paths (no ignore prefixes, mounts not ignored) produces a delta
with `MaxOpenEvents + 1 = 10 001` opens — `shouldIncludeOpenEvent` drops an
open only when the accumulated list is already *strictly longer* than
`MaxOpenEvents`, so the cap is overshot by one — while the create path
still sets `failed="true"`. -/
theorem C1_open_cap_exceeded :
    (buildOpens ({} : Config) [] (openWindow (MaxOpenEvents + 1))).length =
        MaxOpenEvents + 1 ∧
      MaxOpenEvents < (buildOpens ({} : Config) [] (openWindow (MaxOpenEvents + 1))).length ∧
      createLabels ({} : Config) false
        ⟨"c", [], buildOpens ({} : Config) [] (openWindow (MaxOpenEvents + 1)), [], [], [], {}⟩
        "a" = [(failedLabel, "true")] := by
  have hlen : (buildOpens ({} : Config) [] (openWindow (MaxOpenEvents + 1))).length =
      MaxOpenEvents + 1 := by
    unfold buildOpens
    have h := buildOpens_fold_fresh_length ({} : Config) [] rfl rfl
      (openWindow (MaxOpenEvents + 1)) [] (by simp)
      (by intro e _ c hc; simp at hc)
      (openWindow_paths_nodup (MaxOpenEvents + 1))
    rw [h]
    simp only [List.length_nil, Nat.zero_add]
    unfold openWindow
    simp
  refine ⟨hlen, ?_, ?_⟩
  · rw [hlen]; omega
  · unfold createLabels
    dsimp only
    rw [hlen]
    simp [MaxOpenEvents]

/-- On a window of all-outgoing network events with pairwise-distinct
ports, the network-building fold appends every event: no cap is applied on
the delta-building (create) path. -/
theorem buildNet_fold_fresh_length :
    ∀ (events : List NetworkEvent) (acc : NetworkActivity),
      (∀ e ∈ events, e.packetType = "OUTGOING") →
      (∀ e ∈ events, ∀ c ∈ acc.outgoing, c.port ≠ e.port) →
      ((events.map (fun e => e.port)).Nodup) →
      ((events.foldl
        (fun acc e =>
          if e.packetType = "OUTGOING" then
            if !networkEventExists e acc.outgoing then
              { acc with outgoing := acc.outgoing ++ [⟨e.protocol, e.port, e.dstEndpoint⟩] }
            else
              acc
          else if e.packetType = "HOST" then
            if !networkEventExists e acc.incoming then
              { acc with incoming := acc.incoming ++ [⟨e.protocol, e.port, e.dstEndpoint⟩] }
            else
              acc
          else
            acc) acc).outgoing).length = acc.outgoing.length + events.length := by
  intro events
  induction events with
  | nil =>
    intro acc _ _ _
    simp
  | cons e rest ih =>
    intro acc hout hfresh hnodup
    simp only [List.foldl_cons]
    simp only [List.map_cons, List.nodup_cons] at hnodup
    have hpk : e.packetType = "OUTGOING" := hout e (List.mem_cons_self e rest)
    rw [if_pos hpk]
    have hne : networkEventExists e acc.outgoing = false := by
      rw [Bool.eq_false_iff]
      intro hx
      simp only [networkEventExists, List.any_eq_true, decide_eq_true_eq] at hx
      rcases hx with ⟨c, hc, _, hport, _⟩
      exact hfresh e (List.mem_cons_self e rest) c hc hport.symm
    rw [hne]
    simp only [Bool.not_false, if_true]
    have hfresh2 : ∀ e2 ∈ rest, ∀ c ∈ (acc.outgoing ++
        [(⟨e.protocol, e.port, e.dstEndpoint⟩ : NetworkCalls)]), c.port ≠ e2.port := by
      intro e2 he2 c hc
      rcases List.mem_append.mp hc with h | h
      · exact hfresh e2 (List.mem_cons_of_mem e he2) c h
      · have hce : c = (⟨e.protocol, e.port, e.dstEndpoint⟩ : NetworkCalls) :=
          List.mem_singleton.mp h
        rw [hce]
        intro hcontra
        exact hnodup.1 (List.mem_map.mpr ⟨e2, he2, hcontra.symm⟩)
    have hrec := ih { acc with outgoing := acc.outgoing ++ [⟨e.protocol, e.port, e.dstEndpoint⟩] }
      (fun e2 he2 => hout e2 (List.mem_cons_of_mem e he2)) hfresh2 hnodup.2
    rw [hrec]
    have hl1 : ((⟨acc.incoming, acc.outgoing ++
        [⟨e.protocol, e.port, e.dstEndpoint⟩]⟩ : NetworkActivity)).outgoing.length =
        acc.outgoing.length + 1 := by
      simp
    rw [hl1, List.length_cons]
    omega

/-- C6: a drain window of `MaxNetworkEvents + 1` outgoing network events
with pairwise-distinct ports produces a delta whose Outgoing list has
`10 001` entries: the network cap is enforced only on the merge path, not
when the fresh delta is built, and the create path stores the delta
verbatim. -/
theorem C6_network_create_uncapped :
    (buildNetworkActivity (netWindow (MaxNetworkEvents + 1))).outgoing.length =
        MaxNetworkEvents + 1 ∧
      MaxNetworkEvents <
        (buildNetworkActivity (netWindow (MaxNetworkEvents + 1))).outgoing.length ∧
      (collectContainerEvents ({} : Config) cEmptyStoreState cId cNetDrainEnv).state.store
        = storeCreate cEmptyStoreState.store (targetNamespace ({} : Config) cId.nspace)
            (getApplicationProfileName ({} : Config) cId.nspace "pod" cId.podName)
            { labels := createLabels ({} : Config) false
                (buildContainerProfile ({} : Config) cId.container
                  (mountsFor cEmptyStoreState cId) cNetDrainEnv.events) cId.nspace
              containers := [buildContainerProfile ({} : Config) cId.container
                (mountsFor cEmptyStoreState cId) cNetDrainEnv.events] } := by
  have hlen : (buildNetworkActivity (netWindow (MaxNetworkEvents + 1))).outgoing.length =
      MaxNetworkEvents + 1 := by
    unfold buildNetworkActivity
    have h := buildNet_fold_fresh_length (netWindow (MaxNetworkEvents + 1)) {}
      (by intro e he; unfold netWindow at he; rcases List.mem_map.mp he with ⟨i, _, hi⟩
          rw [← hi])
      (by intro e _ c hc; simp [NetworkActivity.outgoing] at hc)
      (by unfold netWindow
          rw [List.map_map]
          have hcomp : ((fun e : NetworkEvent => e.port) ∘
              (fun i => (⟨"OUTGOING", "tcp", i, "1.2.3.4"⟩ : NetworkEvent))) = id := rfl
          rw [hcomp]
          simpa using (List.nodup_range (MaxNetworkEvents + 1)))
    rw [h]
    unfold netWindow
    simp
  refine ⟨hlen, ?_, ?_⟩
  · rw [hlen]; omega
  · have hsp : shouldProcessEvents cNetDrainEnv.events = true := by
      show shouldProcessEvents cNetWindowEvents = true
      unfold shouldProcessEvents cNetWindowEvents netWindow
      simp
    have happ := collect_create_path ({} : Config) cEmptyStoreState cId cNetDrainEnv
      ⟨true, false⟩ (by decide) hsp (by decide) (by rfl)
    rw [happ]

/-- Reading after a single-label patch: the patched key's profile gets the
label set, every other key is untouched. -/
theorem storeGet_patchLabel (st : Store) (ns nm k v nsx nmx : String) :
    storeGet (storePatchLabel st ns nm k v) nsx nmx =
      if (nsx, nmx) = (ns, nm) then
        (storeGet st nsx nmx).map (fun p => { p with labels := setLabel p.labels k v })
      else
        storeGet st nsx nmx := by
  unfold storeGet storePatchLabel
  rw [List.find?_map]
  have hpred : ((fun e : (String × String) × ApplicationProfile => decide (e.fst = (nsx, nmx))) ∘
      (fun e => if e.fst = (ns, nm) then
        (e.fst, { e.snd with labels := setLabel e.snd.labels k v }) else e)) =
      (fun e : (String × String) × ApplicationProfile => decide (e.fst = (nsx, nmx))) := by
    funext e
    by_cases he : e.fst = (ns, nm)
    · simp [he]
    · simp [he]
  rw [hpred]
  cases hfind : st.profiles.find? (fun e => decide (e.fst = (nsx, nmx))) with
  | none =>
    by_cases hkey : ((nsx, nmx) : String × String) = (ns, nm) <;> simp [hkey]
  | some e =>
    have hefst : e.fst = (nsx, nmx) := by
      have hf := List.find?_some hfind
      simpa using hf
    by_cases hkey : ((nsx, nmx) : String × String) = (ns, nm)
    · rw [if_pos hkey]
      have hens : e.fst = (ns, nm) := by rw [hefst, hkey]
      simp [hens]
    · rw [if_neg hkey]
      have hens : ¬ e.fst = (ns, nm) := by
        rw [hefst]
        exact hkey
      simp [hens]

/-- Reading after a full update: the updated key's profile is replaced when
present, every other key is untouched. -/
theorem storeGet_update (st : Store) (ns nm : String) (q : ApplicationProfile)
    (nsx nmx : String) :
    storeGet (storeUpdate st ns nm q) nsx nmx =
      if (nsx, nmx) = (ns, nm) then (storeGet st nsx nmx).map (fun _ => q)
      else storeGet st nsx nmx := by
  unfold storeGet storeUpdate
  rw [List.find?_map]
  have hpred : ((fun e : (String × String) × ApplicationProfile => decide (e.fst = (nsx, nmx))) ∘
      (fun e => if e.fst = (ns, nm) then (e.fst, q) else e)) =
      (fun e : (String × String) × ApplicationProfile => decide (e.fst = (nsx, nmx))) := by
    funext e
    by_cases he : e.fst = (ns, nm)
    · simp [he]
    · simp [he]
  rw [hpred]
  cases hfind : st.profiles.find? (fun e => decide (e.fst = (nsx, nmx))) with
  | none =>
    by_cases hkey : ((nsx, nmx) : String × String) = (ns, nm) <;> simp [hkey]
  | some e =>
    have hefst : e.fst = (nsx, nmx) := by
      have hf := List.find?_some hfind
      simpa using hf
    by_cases hkey : ((nsx, nmx) : String × String) = (ns, nm)
    · rw [if_pos hkey]
      have hens : e.fst = (ns, nm) := by rw [hefst, hkey]
      simp [hens]
    · rw [if_neg hkey]
      have hens : ¬ e.fst = (ns, nm) := by
        rw [hefst]
        exact hkey
      simp [hens]

/-- Reading another key after a create: untouched. -/
theorem storeGet_create_ne (st : Store) (ns nm : String) (q : ApplicationProfile)
    (nsx nmx : String) (h : ((nsx, nmx) : String × String) ≠ (ns, nm)) :
    storeGet (storeCreate st ns nm q) nsx nmx = storeGet st nsx nmx := by
  unfold storeGet storeCreate
  rw [List.find?_append]
  have hone : ([((ns, nm), q)].find? (fun e => decide (e.fst = (nsx, nmx)))) = none := by
    have hns : ¬ ((ns, nm) : String × String) = (nsx, nmx) := fun hc => h hc.symm
    simp [List.find?_cons, hns]
  rw [hone]
  cases hfind : st.profiles.find? (fun e => decide (e.fst = (nsx, nmx))) <;> simp

/-- Reading back a label just set yields the value set. -/
theorem getLabel_setLabel_self (l : List (String × String)) (k v : String) :
    getLabel (setLabel l k v) k = v := by
  unfold getLabel setLabel
  by_cases hany : (l.any (fun kv => kv.fst = k)) = true
  · rw [if_pos hany]
    induction l with
    | nil => simp at hany
    | cons e rest ih =>
      by_cases he : e.fst = k
      · simp [List.find?_cons, he]
      · simp only [List.any_cons, he, decide_eq_false he, Bool.false_or] at hany
        simp only [List.map_cons, List.find?_cons]
        rw [if_neg he]
        simp only [decide_eq_false he]
        exact ih hany
  · rw [if_neg hany]
    have hnone : l.find? (fun kv => decide (kv.fst = k)) = none := by
      rw [List.find?_eq_none]
      intro x hx
      intro hcontra
      apply hany
      rw [List.any_eq_true]
      exact ⟨x, hx, hcontra⟩
    rw [List.find?_append, hnone]
    simp [List.find?_cons]

/-- `ContainerStarted` never writes to the profile store. -/
theorem containerStarted_store (cfg : Config) (env : K8sEnv) (s : CollectorState)
    (id : ContainerId) (attach : Bool) :
    (containerStarted cfg env s id attach).store = s.store := by
  unfold containerStarted
  cases hres : doesApplicationProfileExists cfg env s.store id.nspace id.podName true true with
  | error err =>
    dsimp only
    simp only [Bool.false_eq_true, if_false]
    split <;> split <;> rfl
  | ok ex =>
    dsimp only
    split
    · rfl
    · split <;> split <;> rfl

/-- `ContainerStopped` never writes to the profile store. -/
theorem containerStopped_store (s : CollectorState) (id : ContainerId) :
    (containerStopped s id).store = s.store := by
  unfold containerStopped
  cases hlook : lookupContainer s.containers id with
  | none => rfl
  | some st =>
    dsimp only
    split <;> rfl

/-- The final-profile branch of a drain, symbolically: with the container
registered, a nonempty window and a stored profile carrying `final="true"`
at the target key, the drain tears the container down (filter removed,
trace stopped, pod un-marked, registry entry deleted), performs only the
read, and does not re-arm the timer. -/
theorem collect_final_path (cfg : Config) (s : CollectorState) (id : ContainerId)
    (env : DrainEnv) (st : ContainerState) (p : ApplicationProfile)
    (hreg : lookupContainer s.containers id = some st)
    (hsp : shouldProcessEvents env.events = true)
    (hget : storeGet s.store (targetNamespace cfg id.nspace)
      (getApplicationProfileName cfg id.nspace "pod" id.podName) = some p)
    (hfin : getLabel p.labels finalLabel = "true") :
    collectContainerEvents cfg s id env =
      ⟨teardownContainer s id,
        [StoreOp.get (targetNamespace cfg id.nspace)
          (getApplicationProfileName cfg id.nspace "pod" id.podName)], false⟩ := by
  unfold collectContainerEvents
  rw [hreg, hsp]
  simp only [Bool.not_true, Bool.false_eq_true, if_false]
  rw [hget]
  simp [hfin]

/-- Tearing a container down does not touch the store. -/
theorem teardownContainer_store (s : CollectorState) (id : ContainerId) :
    (teardownContainer s id).store = s.store := rfl

/-- One collector step never changes the `Spec` (containers) of a profile
that carries `final="true"`, and the label survives: lifecycle callbacks do
not write the store, the finalizer only re-patches the final label, and a
drain writes only at its own target key — which cannot hold a final profile
on any writing branch. -/
theorem stepOp_preserves_final (cfg : Config) (s : CollectorState) (op : CollectorOp)
    (nsx nmx : String) (p : ApplicationProfile)
    (hget : storeGet s.store nsx nmx = some p)
    (hfin : getLabel p.labels finalLabel = "true") :
    ∃ q, storeGet (stepOp cfg s op).store nsx nmx = some q ∧
      q.containers = p.containers ∧ getLabel q.labels finalLabel = "true" := by
  cases op with
  | started env id attach =>
    refine ⟨p, ?_, rfl, hfin⟩
    show storeGet (containerStarted cfg env s id attach).store nsx nmx = some p
    rw [containerStarted_store]
    exact hget
  | stopped id =>
    refine ⟨p, ?_, rfl, hfin⟩
    show storeGet (containerStopped s id).store nsx nmx = some p
    rw [containerStopped_store]
    exact hget
  | finalize id =>
    show ∃ q, storeGet (finalizeApplicationProfile cfg s id).fst.store nsx nmx = some q ∧
      q.containers = p.containers ∧ getLabel q.labels finalLabel = "true"
    unfold finalizeApplicationProfile
    cases hlook : lookupContainer s.containers id with
    | none => exact ⟨p, hget, rfl, hfin⟩
    | some st =>
      dsimp only
      rw [storeGet_patchLabel]
      by_cases hkey : ((nsx, nmx) : String × String) =
          (targetNamespace cfg id.nspace, getApplicationProfileName cfg id.nspace "pod" id.podName)
      · rw [if_pos hkey, hget]
        exact ⟨{ p with labels := setLabel p.labels finalLabel "true" }, rfl, rfl,
          getLabel_setLabel_self p.labels finalLabel "true"⟩
      · rw [if_neg hkey]
        exact ⟨p, hget, rfl, hfin⟩
  | drain id env =>
    show ∃ q, storeGet (collectContainerEvents cfg s id env).state.store nsx nmx = some q ∧
      q.containers = p.containers ∧ getLabel q.labels finalLabel = "true"
    cases hlook : lookupContainer s.containers id with
    | none =>
      unfold collectContainerEvents
      rw [hlook]
      exact ⟨p, hget, rfl, hfin⟩
    | some st =>
      by_cases hsp : shouldProcessEvents env.events = true
      · cases hstore : storeGet s.store (targetNamespace cfg id.nspace)
            (getApplicationProfileName cfg id.nspace "pod" id.podName) with
        | none =>
          have hkey_ne : ((nsx, nmx) : String × String) ≠
              (targetNamespace cfg id.nspace,
                getApplicationProfileName cfg id.nspace "pod" id.podName) := by
            intro hcontra
            rw [Prod.mk.injEq] at hcontra
            obtain ⟨h1, h2⟩ := hcontra
            rw [h1, h2, hstore] at hget
            exact Option.noConfusion hget
          unfold collectContainerEvents
          rw [hlook, hsp]
          simp only [Bool.not_true, Bool.false_eq_true, if_false]
          rw [hstore]
          dsimp only
          refine ⟨p, ?_, rfl, hfin⟩
          split
          · rw [storeGet_create_ne _ _ _ _ _ _ hkey_ne]
            exact hget
          · exact hget
        | some existing =>
          by_cases hfin2 : getLabel existing.labels finalLabel = "true"
          · have heq := collect_final_path cfg s id env st existing hlook hsp hstore hfin2
            rw [heq]
            exact ⟨p, hget, rfl, hfin⟩
          · have hkey_ne : ((nsx, nmx) : String × String) ≠
                (targetNamespace cfg id.nspace,
                  getApplicationProfileName cfg id.nspace "pod" id.podName) := by
              intro hcontra
              apply hfin2
              rw [Prod.mk.injEq] at hcontra
              obtain ⟨h1, h2⟩ := hcontra
              rw [h1, h2, hstore] at hget
              have hpe : p = existing := (Option.some.inj hget).symm
              rw [← hpe]
              exact hfin
            unfold collectContainerEvents
            rw [hlook, hsp]
            simp only [Bool.not_true, Bool.false_eq_true, if_false]
            rw [hstore]
            dsimp only
            rw [if_neg hfin2]
            refine ⟨p, ?_, rfl, hfin⟩
            split
            · dsimp only
              rw [storeGet_update, if_neg hkey_ne]
              split
              · rw [storeGet_patchLabel, if_neg hkey_ne]
                exact hget
              · exact hget
            · dsimp only
              rw [storeGet_patchLabel, if_neg hkey_ne, teardownContainer_store]
              dsimp only
              split
              · rw [storeGet_patchLabel, if_neg hkey_ne]
                exact hget
              · exact hget
      · have hsp2 : shouldProcessEvents env.events = false := Bool.eq_false_iff.mpr hsp
        unfold collectContainerEvents
        rw [hlook]
        simp only [hsp2, Bool.not_false, if_true]
        exact ⟨p, hget, rfl, hfin⟩

/-- C2: (1) when a drain reads a profile whose final label is `"true"`, it
performs no write (no create, update or patch — only the read), leaves the
store untouched, removes the container's event-sink filter, stops its
trace, un-marks pod recording, deletes the container from the registry and
does not re-arm; (2) along any sequence of collector operations, a profile
that carries `final="true"` keeps a `Spec` (containers) identical to its
current one, and keeps the final label. -/
theorem C2_final_profile_teardown_no_write :
    (∀ (cfg : Config) (s : CollectorState) (id : ContainerId) (env : DrainEnv)
        (st : ContainerState) (p : ApplicationProfile),
      lookupContainer s.containers id = some st →
        shouldProcessEvents env.events = true →
          storeGet s.store (targetNamespace cfg id.nspace)
            (getApplicationProfileName cfg id.nspace "pod" id.podName) = some p →
            getLabel p.labels finalLabel = "true" →
              ((collectContainerEvents cfg s id env).ops.filter StoreOp.isWrite = [] ∧
                (collectContainerEvents cfg s id env).state.store = s.store ∧
                (collectContainerEvents cfg s id env).state.sinkFilters =
                  s.sinkFilters.filter (fun f => !(decide (f = id.containerID))) ∧
                (collectContainerEvents cfg s id env).state.traces =
                  s.traces.filter (fun t => !(decide (t = (id.nsMntId, id.pid)))) ∧
                (collectContainerEvents cfg s id env).state.podFinalizerState =
                  markPodNotRecording s.podFinalizerState id.podName id.nspace ∧
                lookupContainer (collectContainerEvents cfg s id env).state.containers id =
                  none ∧
                (collectContainerEvents cfg s id env).rearmed = false)) ∧
      (∀ (cfg : Config) (s : CollectorState) (ops : List CollectorOp) (nsx nmx : String)
          (p : ApplicationProfile),
        storeGet s.store nsx nmx = some p →
          getLabel p.labels finalLabel = "true" →
            ∃ q, storeGet (ops.foldl (stepOp cfg) s).store nsx nmx = some q ∧
              q.containers = p.containers ∧ getLabel q.labels finalLabel = "true") := by
  constructor
  · intro cfg s id env st p hreg hsp hget hfin
    have heq := collect_final_path cfg s id env st p hreg hsp hget hfin
    rw [heq]
    exact ⟨rfl, rfl, rfl, rfl, rfl, lookupContainer_erase s.containers id, rfl⟩
  · intro cfg s ops
    induction ops generalizing s with
    | nil =>
      intro nsx nmx p hget hfin
      exact ⟨p, hget, rfl, hfin⟩
    | cons op rest ih =>
      intro nsx nmx p hget hfin
      obtain ⟨q, hq, hqc, hqf⟩ := stepOp_preserves_final cfg s op nsx nmx p hget hfin
      obtain ⟨r, hr, hrc, hrf⟩ := ih (stepOp cfg s op) nsx nmx q hq hqf
      refine ⟨r, ?_, ?_, hrf⟩
      · simpa using hr
      · rw [hrc, hqc]

/-- C2 witness: both parts instantiated at a registered container whose
workload has a final profile in the store. -/
theorem C2_final_profile_teardown_no_write_witness :
    lookupContainer cRegFinalState.containers cId = some ⟨true, false⟩ ∧
      shouldProcessEvents cDnsDrainEnv.events = true ∧
      storeGet cRegFinalState.store (targetNamespace cConfig cId.nspace)
        (getApplicationProfileName cConfig cId.nspace "pod" cId.podName) =
        some cFinalProfile ∧
      getLabel cFinalProfile.labels finalLabel = "true" ∧
      ((collectContainerEvents cConfig cRegFinalState cId cDnsDrainEnv).ops.filter
          StoreOp.isWrite = [] ∧
        (collectContainerEvents cConfig cRegFinalState cId cDnsDrainEnv).state.store =
          cRegFinalState.store ∧
        (collectContainerEvents cConfig cRegFinalState cId cDnsDrainEnv).state.sinkFilters =
          cRegFinalState.sinkFilters.filter (fun f => !(decide (f = cId.containerID))) ∧
        (collectContainerEvents cConfig cRegFinalState cId cDnsDrainEnv).state.traces =
          cRegFinalState.traces.filter (fun t => !(decide (t = (cId.nsMntId, cId.pid)))) ∧
        (collectContainerEvents cConfig cRegFinalState cId cDnsDrainEnv).state.podFinalizerState =
          markPodNotRecording cRegFinalState.podFinalizerState cId.podName cId.nspace ∧
        lookupContainer
          (collectContainerEvents cConfig cRegFinalState cId cDnsDrainEnv).state.containers
          cId = none ∧
        (collectContainerEvents cConfig cRegFinalState cId cDnsDrainEnv).rearmed = false) ∧
      (∃ q, storeGet (([CollectorOp.finalize cId].foldl (stepOp cConfig) cRegFinalState)).store
          "a" "pod-p" = some q ∧ q.containers = cFinalProfile.containers ∧
          getLabel q.labels finalLabel = "true") :=
  ⟨by decide, by decide, by decide, by decide,
    C2_final_profile_teardown_no_write.1 cConfig cRegFinalState cId cDnsDrainEnv
      ⟨true, false⟩ cFinalProfile (by decide) (by decide) (by decide) (by decide),
    C2_final_profile_teardown_no_write.2 cConfig cRegFinalState [CollectorOp.finalize cId]
      "a" "pod-p" cFinalProfile (by decide) (by decide)⟩

end KapProfiler
